import Mathlib

/-!
Verification development for the request-routing and validation pipeline of the
openapi-ts-backend repository.  The definitions below are a shallow embedding of
`src/openapi.ts`, `src/errors.ts` and `src/utils.ts`: JavaScript values are
modelled by the inductive `Value` (with explicit `undef` and `null`), thrown
errors by the inductive `Err` mirroring the error-class hierarchy, and the
asynchronous pipeline by total functions returning a `Response` together with an
optional thrown error.  Authorizer invocations and operation-handler invocations
are logged in an event list so that claims about which plugin functions run (and
with which security results) are provable statements rather than artifacts.
-/

namespace OpenApiTs

/-- JavaScript values as they flow through the pipeline: JSON data plus the
distinguished `undefined`. -/
inductive Value where
  | undef
  | null
  | str (s : String)
  | int (n : Int)
  | bool (b : Bool)
  | arr (elems : List Value)
  | obj (fields : List (String × Value))

/-- Parameter maps (JS objects of request/response params and headers). -/
abbrev Params := List (String × Value)

/-- Truth of the JS test `v === null || v === undefined` used by the `??`
operator. -/
def Value.isNullish : Value → Bool
  | .null => true
  | .undef => true
  | _ => false

/-- The JS nullish-coalescing assignment `a ?? b` on an optional slot, where
`none` models an unset (`undefined`) slot. -/
def nullishVal (a : Option Value) (b : Option Value) : Option Value :=
  match a with
  | none => b
  | some v => if v.isNullish then b else some v

/-- JS `String(v)` conversion (arrays join their elements with a comma). -/
def jsToString : Value → String
  | .undef => "undefined"
  | .null => "null"
  | .str s => s
  | .int n => toString n
  | .bool b => if b then "true" else "false"
  | .arr es => String.intercalate "," (es.attach.map fun e => jsToString e.1)
  | .obj _ => "[object Object]"
decreasing_by
  have := List.sizeOf_lt_of_mem e.2
  simp only [Value.arr.sizeOf_spec]
  omega

/-- A rendering of `JSON.stringify` sufficient for the error-message strings
built by the pipeline. -/
def jsonStringify : Value → String
  | .undef => "null"
  | .null => "null"
  | .str s => "\"" ++ s ++ "\""
  | .int n => toString n
  | .bool b => if b then "true" else "false"
  | .arr es => "[" ++ String.intercalate "," (es.attach.map fun e => jsonStringify e.1) ++ "]"
  | .obj fs => "\x7b" ++ String.intercalate ","
      (fs.attach.map fun f => "\"" ++ f.1.1 ++ "\":" ++ jsonStringify f.1.2) ++ "\x7d"
decreasing_by
  · have := List.sizeOf_lt_of_mem e.2
    simp only [Value.arr.sizeOf_spec]
    omega
  · have := List.sizeOf_lt_of_mem f.2
    have h2 : sizeOf f.1.2 < sizeOf f.1 := by
      obtain ⟨a, b⟩ := f.1
      simp only [Prod.mk.sizeOf_spec]
      omega
    simp only [Value.obj.sizeOf_spec]
    omega

/-- An object field holding a possibly-undefined value (JS `{k: v}` with `v`
possibly `undefined`). -/
def optValue : Option Value → Value
  | none => .undef
  | some v => v

/-- Lookup in a JS object modelled as an association list (object keys are
unique, so the first match is the value). -/
def lookupKey (l : List (String × α)) (k : String) : Option α :=
  (l.find? fun p => p.1 = k).map fun p => p.2

/-- An Ajv validation error object (`ErrorObject`): the fields read by this
code base. -/
structure ValErr where
  keyword : String
  dataPath : String
  message : String
  params : List (String × Value)

/-- The raw (wire-format) request handed to `handleAsync`. -/
structure RawRequest where
  method : String
  path : String
  query : Option Params := none
  headers : Params := []
  body : Option Value := none

/-- The pending response object mutated by interceptors and handlers
(`statusCode`/`body` unset until resolved). -/
structure Response where
  statusCode : Option Nat := none
  headers : Params := []
  body : Option Value := none

/-- The finalized raw response returned by `handleAsync`. -/
structure RawResponse where
  statusCode : Nat
  headers : Params
  body : Option Value

/-- The typed request produced by `parseRequest`. -/
structure Request where
  method : String
  path : String
  params : Params
  headers : Params
  query : Params
  body : Option Value

/-- Thrown errors: the error-class hierarchy of `src/errors.ts` plus plain
`Error` values (`simple`).  `unauthorized` carries the errors collected from
throwing authorizers; `http` is the user-facing `HttpError` with its
`statusCode` and optional `data` payload. -/
inductive Err where
  | badRequest (message : String) (errors : List ValErr)
  | notFound (message : String)
  | notImplemented (message : String)
  | unauthorized (message : String) (errors : List Err)
  | http (message : String) (statusCode : Nat) (data : Option Value)
  | simple (message : String)

/-- The `message` property every JS `Error` instance carries. -/
def Err.message : Err → String
  | .badRequest m _ => m
  | .notFound m => m
  | .notImplemented m => m
  | .unauthorized m _ => m
  | .http m _ _ => m
  | .simple m => m

/-- Reading `(error as any).statusCode`: only `HttpError` instances carry one. -/
def Err.statusCodeField : Err → Option Nat
  | .http _ s _ => some s
  | _ => none

/-- Reading `(error as any).data`: only `HttpError` instances carry a payload. -/
def Err.dataField : Err → Option Value
  | .http _ _ d => d
  | _ => none

/-- The `instanceof Errors.NotFoundError` test used by the definition loop. -/
def Err.isNotFound : Err → Bool
  | .notFound _ => true
  | _ => false

/-- Format of `formatValidationError` in `src/utils.ts`. -/
def formatValidationError (e : ValErr) : String :=
  "At " ++ "\x27" ++ e.dataPath ++ "\x27" ++ ": " ++
    String.intercalate ", " (e.params.map fun p => p.1 ++ ": " ++ jsonStringify p.2)

/-- Format of `formatArray` in `src/utils.ts` (each item on a bulleted line). -/
def formatArray (items : List α) (formatter : α → String) (pfx : String := "\n  * ") : String :=
  String.join (items.map fun item => pfx ++ formatter item)

/-- Format of `formatOperationName` in `src/errors.ts`. -/
def formatOperationName (req : RawRequest) : String :=
  req.method.toUpper ++ " " ++ req.path

/-- Constructor of `BadRequestError` (thrown by the `validationFail` handler). -/
def mkBadRequestError (req : RawRequest) (errors : List ValErr) : Err :=
  .badRequest ("Invalid request: " ++ formatArray errors formatValidationError) errors

/-- Constructor of `NotFoundError` (thrown by the `notFound` handler). -/
def mkNotFoundError (req : RawRequest) : Err :=
  .notFound ("Unknown operation " ++ formatOperationName req)

/-- Constructor of `NotImplementedError` (thrown by the `notImplemented`
handler). -/
def mkNotImplementedError (req : RawRequest) : Err :=
  .notImplemented ("Operation " ++ formatOperationName req ++ " not implemented")

/-- Constructor of `UnauthorizedError`: carries the per-scheme errors collected
by `authorizeRequest`. -/
def mkUnauthorizedError (req : RawRequest) (errors : List Err) : Err :=
  .unauthorized ("Operation " ++ formatOperationName req ++ " not authorized") errors

/-- The `HttpError` value `toHttpError` produces (statusCode always set). -/
structure HttpErrV where
  message : String
  statusCode : Nat
  data : Option Value

/-- The sequential fold `statusCode = statusCode ?? subStatusCode` performed
while mapping the collected authorizer errors in `toHttpError`. -/
def statusFold (errors : List Err) : Option Nat :=
  errors.foldl (fun acc e => match acc with | some s => some s | none => e.statusCodeField) none

/-- Embedding of `toHttpError` in `src/errors.ts`: maps each thrown error kind
to its HTTP status and body payload. -/
def toHttpError (err : Err) : HttpErrV :=
  match err with
  | .badRequest _ errors =>
      ⟨"Invalid request", 400,
        some (.obj [("errors", .arr (errors.map fun d =>
          .obj [("message", .str ((if d.dataPath = "" then "Request" else d.dataPath) ++ " " ++ d.message)),
                ("data", .obj [("keyword", .str d.keyword), ("dataPath", .str d.dataPath),
                               ("params", .obj d.params)])]))])⟩
  | .notFound _ => ⟨"Resource not found", 404, none⟩
  | .notImplemented _ => ⟨"Not implemented", 501, none⟩
  | .unauthorized _ errors =>
      let mapped := errors.map fun e => Value.obj [("message", .str e.message), ("data", optValue e.dataField)]
      ⟨"Not authorized", (statusFold errors).getD 401, some (.obj [("errors", .arr mapped)])⟩
  | .http m s d => ⟨m, s, d⟩
  | .simple _ => ⟨"Internal error", 500, none⟩

/-- Embedding of `defaultErrorHandler`: `Object.assign(res, {statusCode, body})`
with the status and body from `toHttpError` (headers are preserved). -/
def defaultErrorHandler (req : RawRequest) (res : Response) (data : Value) (err : Err) : Response :=
  let h := toHttpError err
  { res with statusCode := some h.statusCode,
             body := some (.obj [("message", .str h.message), ("data", optValue h.data)]) }

/-- One security-requirement alternative: `Object.entries` of one OpenAPI
security-requirement object, i.e. scheme names paired with required scopes
(object keys are unique, so entries are pairwise distinct by construction). -/
abbrev SecRequirement := List (String × List String)

/-- Keys of an OpenAPI `responses` object: numeric status-code keys, or
non-numeric keys such as `default` or `2XX` (which `Number(...)` maps to NaN). -/
inductive ResponseKey where
  | code (n : Nat)
  | other
deriving DecidableEq

/-- The JS `Number(key)` conversion on a responses key; `none` models NaN. -/
def jsNumberOfKey : ResponseKey → Option Nat
  | .code n => some n
  | .other => none

/-- One declared operation parameter (the fields used for schema assembly). -/
structure OperationParameter where
  paramIn : String
  name : String
  required : Bool := false
  schema : Value := .obj []

/-- The matched operation as read by the dispatcher: responses keys, declared
security and parameters. -/
structure Operation where
  responses : List ResponseKey := []
  security : Option (List SecRequirement) := none
  parameters : List OperationParameter := []

/-- The parts of the parsed OpenAPI document the dispatcher reads. -/
structure ApiDefinition where
  security : Option (List SecRequirement) := none
  securitySchemes : Params := []

/-- The argument object `{name, scheme, parameters: {scopes}}` each authorizer
receives. -/
structure AuthArg where
  name : String
  scheme : Option Value
  scopes : List String

/-- An authorizer function: returns a scheme result or throws.  The source also
passes the pending response and the operation params; the model passes the
parsed request, the custom data and the requirement descriptor, which are the
inputs the claims depend on. -/
abbrev Authorizer := Request → Value → AuthArg → Except Err Value

/-- Logged plugin invocations: one event per authorizer call (with its scheme
name and scopes) and one per operation-handler call (with the security results
map the handler receives). -/
inductive Ev where
  | authCall (name : String) (scopes : List String)
  | handlerCall (results : List (String × Value))

/-- One authorizer invocation as performed inside the requirement loop of
`authorizeRequest`: the scheme object is looked up in
`definition.components.securitySchemes`. -/
def callAuthorizer (authorizers : String → Authorizer) (defn : ApiDefinition)
    (req : Request) (data : Value) (name : String) (scopes : List String) : Except Err Value :=
  authorizers name req data ⟨name, lookupKey defn.securitySchemes name, scopes⟩

/-- Outcome of evaluating one requirement set (the inner loop of
`authorizeRequest`): the per-scheme results collected so far, the errors pushed
by throwing authorizers, the logged calls, and the `authorized` flag. -/
structure ReqSetOutcome where
  results : List (String × Value)
  errors : List Err
  calls : List Ev
  authorized : Bool

/-- The inner loop of `authorizeRequest`: every scheme of the set is attempted
(even after an earlier scheme threw); a successful call records its result
under the scheme name, a throwing call clears the `authorized` flag and records
the error. -/
def evalRequirementSet (authorizers : String → Authorizer) (defn : ApiDefinition)
    (req : Request) (data : Value) : SecRequirement → ReqSetOutcome
  | [] => ⟨[], [], [], true⟩
  | (name, scopes) :: rest =>
    let r := callAuthorizer authorizers defn req data name scopes
    let o := evalRequirementSet authorizers defn req data rest
    match r with
    | .ok v => ⟨(name, v) :: o.results, o.errors, .authCall name scopes :: o.calls, o.authorized⟩
    | .error e => ⟨o.results, e :: o.errors, .authCall name scopes :: o.calls, false⟩

/-- Outcome of the requirement-alternation loop: either the winning results map
or the accumulated list of all recorded errors, together with the logged calls. -/
structure AuthOutcome where
  result : Except (List Err) (List (String × Value))
  calls : List Ev

/-- The outer loop of `authorizeRequest`: alternatives are tried in declaration
order, the errors list accumulates across alternatives, and the first
alternative whose set left `authorized` true returns its results map
immediately. -/
def evalRequirements (authorizers : String → Authorizer) (defn : ApiDefinition)
    (req : Request) (data : Value) : List SecRequirement → List Err → AuthOutcome
  | [], errors => ⟨.error errors, []⟩
  | s :: rest, errors =>
    let o := evalRequirementSet authorizers defn req data s
    if o.authorized then ⟨.ok o.results, o.calls⟩
    else
      let r := evalRequirements authorizers defn req data rest (errors ++ o.errors)
      ⟨r.result, o.calls ++ r.calls⟩

/-- Embedding of `authorizeRequest` in `src/openapi.ts`: resolves the
requirement list as `operation.security ?? definition.security ?? []`, returns
an empty results map immediately for an empty list, and otherwise runs the
alternation loop, throwing `UnauthorizedError` with every collected error when
no alternative is satisfied. -/
def authorizeRequest (authorizers : String → Authorizer) (defn : ApiDefinition)
    (op : Operation) (rawReq : RawRequest) (req : Request) (data : Value) :
    (Except Err (List (String × Value))) × List Ev :=
  let securityRequirements := (op.security.orElse fun _ => defn.security).getD []
  if securityRequirements.isEmpty then (.ok [], [])
  else
    let o := evalRequirements authorizers defn req data securityRequirements []
    match o.result with
    | .ok results => (.ok results, o.calls)
    | .error errors => (.error (mkUnauthorizedError rawReq errors), o.calls)

/-- Declarative description of the calls one alternative performs: every scheme
of the set is invoked, in order. -/
def altCalls (alt : SecRequirement) : List Ev :=
  alt.map fun e => .authCall e.1 e.2

/-- Declarative description of the results map one alternative collects: the
returned value of every non-throwing scheme, in order. -/
def altResults (authorizers : String → Authorizer) (defn : ApiDefinition)
    (req : Request) (data : Value) (alt : SecRequirement) : List (String × Value) :=
  alt.filterMap fun e =>
    match callAuthorizer authorizers defn req data e.1 e.2 with
    | .ok v => some (e.1, v)
    | .error _ => none

/-- Declarative description of the errors one alternative records: the thrown
error of every throwing scheme, in order. -/
def altErrors (authorizers : String → Authorizer) (defn : ApiDefinition)
    (req : Request) (data : Value) (alt : SecRequirement) : List Err :=
  alt.filterMap fun e =>
    match callAuthorizer authorizers defn req data e.1 e.2 with
    | .ok _ => none
    | .error er => some er

/-- Boolean test for a fully-satisfied alternative: every scheme of the set
returns without throwing. -/
def altOkB (authorizers : String → Authorizer) (defn : ApiDefinition)
    (req : Request) (data : Value) (alt : SecRequirement) : Bool :=
  alt.all fun e =>
    match callAuthorizer authorizers defn req data e.1 e.2 with
    | .ok _ => true
    | .error _ => false

/-- Embedding of `inRange(min, max)` in `src/utils.ts` applied to a JS number
that may be NaN (`none`): `value >= min && value < max`, false for NaN. -/
def inRangeOpt (lo hi : Nat) : Option Nat → Bool
  | some v => lo ≤ v && v < hi
  | none => false

/-- The `codes` list computed inside `getDefaultStatusCode`: the numeric
responses keys in the half-open success range `[200, 400)` (non-numeric keys
become NaN and fail `inRange`). -/
def successCodes (op : Operation) : List Nat :=
  ((op.responses.map jsNumberOfKey).filter (inRangeOpt 200 400)).filterMap id

/-- Rendering of `JSON.stringify(codes)` for the implicit-status-code error
message. -/
def renderCodes (codes : List Nat) : String :=
  "[" ++ String.intercalate "," (codes.map toString) ++ "]"

/-- The message of the error thrown when no unambiguous default status code
exists. -/
def implicitStatusMsg (op : Operation) : String :=
  "Cannot determine implicit status code from API definition response codes " ++
    renderCodes (successCodes op)

/-- Embedding of `getDefaultStatusCode` in `src/openapi.ts`: if exactly one
responses key lies in `[200, 400)` it is the implicit status code, otherwise an
`Error` is thrown. -/
def getDefaultStatusCode (op : Operation) : Except Err Nat :=
  match successCodes op with
  | [c] => .ok c
  | _ => .error (.simple (implicitStatusMsg op))

/-- The assembled parameter schema of `getParametersSchema` in `src/utils.ts`. -/
structure ParamSchema where
  required : List String
  properties : Params
  additionalProperties : Bool

/-- Embedding of `getParametersSchema`: every declared parameter with a
matching `in` contributes its schema under `properties`, and its name to
`required` when marked required; `additionalProperties` is true so unknown
fields pass through. -/
def getParametersSchema (op : Operation) (type : String) : ParamSchema :=
  op.parameters.foldl
    (fun acc p =>
      if p.paramIn = type then
        { acc with properties := acc.properties ++ [(p.name, p.schema)],
                   required := acc.required ++ (if p.required then [p.name] else []) }
      else acc)
    ⟨[], [], true⟩

/-- The external Ajv validation step (`coerceTypes: array`): given a schema and
a parameter object it returns the coerced object and the validation errors.
Ajv itself is an external collaborator, so it is a parameter of the model. -/
abbrev AjvFn := ParamSchema → Params → Params × List ValErr

/-- Embedding of `matchSchema` in `src/utils.ts` (value-level view): Ajv
mutates the object it receives, so the source is cloned first and the coerced
result is the validated clone.  In this value model the clone is the source
value itself and the mutation is the value returned by the validator; the
heap-level view proving that the original object is untouched is
`matchSchemaH` below. -/
def matchSchema (validate : AjvFn) (source : Params) (schema : ParamSchema) :
    Params × List ValErr :=
  validate schema source

/-- Failure strategies for response-validation errors. -/
inductive FailStrategy where
  | warn
  | throw
deriving DecidableEq

/-- Embedding of `fail`: the throw strategy raises an `Error` with the message,
the warn strategy only logs (no thrown error). -/
def failWith (message : String) : FailStrategy → Option Err
  | .throw => some (.simple message)
  | .warn => none

/-- Embedding of `handleValidationErrors`: a non-empty error list fails with
the formatted message under the given strategy. -/
def handleValidationErrors (errors : List ValErr) (title : String)
    (strategy : FailStrategy) : Option Err :=
  if errors.isEmpty then none
  else failWith (title ++ ": " ++ formatArray errors formatValidationError) strategy

/-- Embedding of `parseParams`: coerce one group of raw parameters against the
schema assembled for the given parameter location. -/
def parseParams (ajv : AjvFn) (rawParams : Params) (op : Operation) (type : String) :
    Params × List ValErr :=
  matchSchema ajv rawParams (getParametersSchema op type)

/-- Embedding of `parseRequest`: coerce path params, headers and query, collect
the Ajv errors of all three groups, and throw (the internal `throw` strategy)
when any coercion error remains, since upstream validation should already have
caught them. -/
def parseRequest (ajv : AjvFn) (rawReq : RawRequest) (pathParams : Params)
    (op : Operation) : Except Err Request :=
  let p := parseParams ajv pathParams op "path"
  let h := parseParams ajv rawReq.headers op "header"
  let q := parseParams ajv (rawReq.query.getD []) op "query"
  let errors := p.2 ++ h.2 ++ q.2
  match handleValidationErrors errors "Request doesn\x27t match schema" .throw with
  | some e => .error e
  | none => .ok ⟨rawReq.method, rawReq.path, p.1, h.1, q.1, rawReq.body⟩

/-- Embedding of `formatResponse` (one header value): `oneOrMany(String)`
stringifies a single value, or each element of an array value. -/
def stringifyHeaderValue (v : Value) : Value :=
  match v with
  | .arr es => .arr (es.map fun e => .str (jsToString e))
  | x => .str (jsToString x)

/-- Embedding of `formatResponse`: defaults the status code to 500 (dead at
the call site, where the facade has already set it), stringifies every header
value, and passes the body through. -/
def formatResponse (res : Response) : RawResponse :=
  { statusCode := res.statusCode.getD 500,
    headers := res.headers.map fun p => (p.1, stringifyHeaderValue p.2),
    body := res.body }

/-- The params record each operation handler receives (the claims read the
custom data and `security.results`). -/
structure OpParams where
  data : Value
  results : List (String × Value)

/-- An operation handler: receives the typed request, the pending response and
the operation params; returns its (possibly mutated) response together with a
returned body value or a thrown error. -/
abbrev OperationHandler := Request → Response → OpParams → Response × Except Err (Option Value)

/-- Routing outcome of the external `openapi-backend` matcher for one
definition: not found, upstream validation failure, or a matched operation
with its id and extracted path parameters. -/
inductive MatchOutcome where
  | notFound
  | validationFail (errors : List ValErr)
  | matched (op : Operation) (operationId : String) (pathParams : Params)

/-- One registered API definition: the external matcher and validators, the
registered operation handlers and authorizers, and the parsed document. -/
structure ApiModel where
  matchOutcome : RawRequest → MatchOutcome
  operations : List (String × OperationHandler)
  authorizers : String → Authorizer
  definition : ApiDefinition
  ajv : AjvFn
  respBodyErrors : Option Value → Operation → List ValErr
  respHeaderErrors : Params → Operation → Option Nat → List ValErr

/-- Embedding of `validateResponse`: body errors and header errors (superset
match, both external calls) are accumulated into one list and handed to
`handleValidationErrors` under the configured strategy. -/
def validateResponse (api : ApiModel) (strategy : FailStrategy) (op : Operation)
    (res : Response) : Option Err :=
  let errors := api.respBodyErrors res.body op ++ api.respHeaderErrors res.headers op res.statusCode
  handleValidationErrors errors "Response doesn\x27t match schema" strategy

/-- Result of one pipeline step: the response state, eventually a thrown
error, and the plugin invocations logged. -/
structure StepOut where
  res : Response
  err : Option Err
  calls : List Ev

/-- Embedding of the handler wrapper built by `createHandler`: parse the
request, authorize it, invoke the registered handler, resolve the body
(`res.body = res.body ?? returned`), resolve the status code
(`res.statusCode = res.statusCode ?? getDefaultStatusCode(operation)`, the
right-hand side evaluated only when unset), then validate the response. -/
def runOperation (api : ApiModel) (strategy : FailStrategy) (handler : OperationHandler)
    (op : Operation) (pathParams : Params) (rawReq : RawRequest) (res : Response)
    (data : Value) : StepOut :=
  match parseRequest api.ajv rawReq pathParams op with
  | .error e => ⟨res, some e, []⟩
  | .ok req =>
    match authorizeRequest api.authorizers api.definition op rawReq req data with
    | (.error e, calls) => ⟨res, some e, calls⟩
    | (.ok results, calls) =>
      let hr := handler req res ⟨data, results⟩
      let calls := calls ++ [.handlerCall results]
      match hr.2 with
      | .error e => ⟨hr.1, some e, calls⟩
      | .ok resBody =>
        let res2 : Response := { hr.1 with body := nullishVal hr.1.body resBody }
        let scE : Except Err Nat :=
          match res2.statusCode with
          | some c => .ok c
          | none => getDefaultStatusCode op
        match scE with
        | .error e => ⟨res2, some e, calls⟩
        | .ok c =>
          let res3 : Response := { res2 with statusCode := some c }
          ⟨res3, validateResponse api strategy op res3, calls⟩

/-- Embedding of one `api.handleRequest` probe: the external matcher either
reports not-found or a validation failure (whose default handlers throw the
corresponding error), or hands the matched operation to the registered handler
wrapper; a matched operation with no registered handler throws
`NotImplementedError`. -/
def apiHandleRequest (api : ApiModel) (strategy : FailStrategy) (rawReq : RawRequest)
    (res : Response) (data : Value) : StepOut :=
  match api.matchOutcome rawReq with
  | .validationFail errors => ⟨res, some (mkBadRequestError rawReq errors), []⟩
  | .notFound => ⟨res, some (mkNotFoundError rawReq), []⟩
  | .matched op opid pathParams =>
    match lookupKey api.operations opid with
    | none => ⟨res, some (mkNotImplementedError rawReq), []⟩
    | some handler => runOperation api strategy handler op pathParams rawReq res data

/-- An interceptor: may mutate the pending response or throw to abort. -/
abbrev Interceptor := RawRequest → Response → Value → Response × Option Err

/-- The sequential interceptor loop of `routeAsync`: each interceptor is
awaited before the next, and a thrown error aborts the remaining ones. -/
def runInterceptors : List Interceptor → RawRequest → Response → Value → Response × Option Err
  | [], _, res, _ => (res, none)
  | i :: rest, req, res, data =>
    match i req res data with
    | (res2, none) => runInterceptors rest req res2 data
    | (res2, some e) => (res2, some e)

/-- The definition loop of `routeAsync`, abstracted over the probe of one
definition (instantiated with `apiHandleRequest` by `routeAsync`): a
`NotFoundError` is remembered and the next definition is tried, any other
error propagates immediately, and an exhausted list rethrows the remembered
error (the `No routes registered` fallback is unreachable because the caller
already rejected an empty list). -/
def routeLoop (probe : ApiModel → Response → StepOut) :
    List ApiModel → Response → Option Err → StepOut
  | [], res, remembered => ⟨res, some (remembered.getD (.simple "No routes registered")), []⟩
  | api :: rest, res, remembered =>
    let o := probe api res
    match o.err with
    | none => o
    | some e =>
      if e.isNotFound then
        let o2 := routeLoop probe rest o.res (some e)
        ⟨o2.res, o2.err, o.calls ++ o2.calls⟩
      else o

/-- The facade configuration: the registered definitions and interceptors, the
error handler and the response-validation strategy.  The error handler is a
total function, matching its contract of filling in the response. -/
structure Config where
  interceptors : List Interceptor
  apis : List ApiModel
  errorHandler : RawRequest → Response → Value → Err → Response
  strategy : FailStrategy

/-- Embedding of `routeAsync`: reject when no definition is registered, run the
interceptors in order, then probe the definitions in registration order. -/
def routeAsync (cfg : Config) (req : RawRequest) (res : Response) (data : Value) : StepOut :=
  if cfg.apis.isEmpty then ⟨res, some (.simple "No APIs are registered"), []⟩
  else
    match runInterceptors cfg.interceptors req res data with
    | (res2, some e) => ⟨res2, some e, []⟩
    | (res2, none) =>
      routeLoop (fun api r => apiHandleRequest api cfg.strategy req r data) cfg.apis res2 none

/-- The fresh pending response `handleAsync` allocates for each call. -/
def emptyResponse : Response := { statusCode := none, headers := [], body := none }

/-- Embedding of `handleAsync`: route the request; on any thrown error invoke
the error handler on the response; force `statusCode` to 500 when still unset;
and finalize through `formatResponse`.  Totality of this function is the
"never rejects" guarantee. -/
def handleAsync (cfg : Config) (req : RawRequest) (data : Value) : RawResponse × List Ev :=
  let o := routeAsync cfg req emptyResponse data
  let res1 :=
    match o.err with
    | none => o.res
    | some e => cfg.errorHandler req o.res data e
  let res2 : Response := { res1 with statusCode := some (res1.statusCode.getD 500) }
  (formatResponse res2, o.calls)

/-! Heap-level view of `matchSchema`.  Ajv coerces types by mutating the object
it is given, so `matchSchema` first makes a structural copy
(`JSON.parse(JSON.stringify(source))`) and lets the validator mutate only the
copy.  To state that the caller never observes a mutation, parameter objects
are placed in an explicit store of JS objects addressed by reference. -/

/-- A store of JS parameter objects; a reference is an index into the store. -/
structure Heap where
  objs : List Params

/-- Read the object a reference points to. -/
def Heap.deref (h : Heap) (r : Nat) : Option Params :=
  h.objs[r]?

/-- Allocate a fresh object (JS object creation returns a new reference). -/
def Heap.alloc (h : Heap) (v : Params) : Heap × Nat :=
  (⟨h.objs ++ [v]⟩, h.objs.length)

/-- Overwrite the object a reference points to (in-place mutation). -/
def Heap.setRef (h : Heap) (r : Nat) (v : Params) : Heap :=
  ⟨h.objs.set r v⟩

/-- Heap-level embedding of `matchSchema` in `src/utils.ts`: clone the source
object into a fresh reference, then let the (arbitrary, external) Ajv
validator mutate the clone; the result reference is the clone. -/
def matchSchemaH (validate : AjvFn) (schema : ParamSchema) (h : Heap) (src : Nat) :
    Heap × Nat × List ValErr :=
  let v := (h.deref src).getD []
  let a := h.alloc v
  let r := validate schema v
  (a.1.setRef a.2 r.1, a.2, r.2)

/-- Heap-level embedding of the three coercion calls `parseRequest` performs on
the raw params, headers and query objects of the request. -/
def parseRequestH (validate : AjvFn) (op : Operation) (h : Heap)
    (paramsRef headersRef queryRef : Nat) : Heap × (Nat × Nat × Nat) × List ValErr :=
  let p := matchSchemaH validate (getParametersSchema op "path") h paramsRef
  let hd := matchSchemaH validate (getParametersSchema op "header") p.1 headersRef
  let q := matchSchemaH validate (getParametersSchema op "query") hd.1 queryRef
  (q.1, (p.2.1, hd.2.1, q.2.1), p.2.2 ++ hd.2.2 ++ q.2.2)

/-- Boolean success test for a thrown-or-returned computation. -/
def exceptIsOk : Except Err α → Bool
  | .ok _ => true
  | .error _ => false

/-- Nullishness of an optional slot: unset (`undefined`) or holding a nullish
value. -/
def isNullishOpt : Option Value → Bool
  | none => true
  | some v => v.isNullish

/-- Test that a value is a string. -/
def isStringValue : Value → Bool
  | .str _ => true
  | _ => false

/-- Test that a finalized header value is a string or an array of strings. -/
def isStringOrStringArray : Value → Bool
  | .str _ => true
  | .arr es => es.all isStringValue
  | _ => false

/-! Concrete fixtures used by the witness theorems. -/

/-- Fixture authorizer map: the schemes `good` and `good2` succeed, every
other scheme throws an `HttpError` with status 403. -/
def wAuth : String → Authorizer := fun name _ _ _ =>
  if name = "good" then .ok (.str "token")
  else if name = "good2" then .ok (.int 2)
  else .error (.http ("bad " ++ name) 403 none)

/-- Fixture document with no document-level security. -/
def wDefn : ApiDefinition := {}

/-- Fixture raw request. -/
def wRaw : RawRequest := { method := "get", path := "/x" }

/-- Fixture parsed request. -/
def wReq : Request := ⟨"get", "/x", [], [], [], none⟩

/-- Fixture operation for the alternation claim: a failing alternative, then a
fully satisfied one, then one that must never be evaluated. -/
def wOpWin : Operation :=
  { security := some [[("bad", []), ("good", [])], [("good", ["s1"]), ("good2", [])], [("never", [])]] }

/-- Fixture operation whose alternatives all fail. -/
def wOpFail : Operation :=
  { security := some [[("b1", [])], [("b2", ["s"]), ("good", [])]] }

/-- Fixture operation containing an empty alternative after a failing one. -/
def wOpEmptyAlt : Operation :=
  { security := some [[("bad", [])], [], [("never", [])]] }

/-- Fixture external Ajv: no coercion, no errors. -/
def wAjv : AjvFn := fun _ v => (v, [])

/-- Fixture external response-body validator: no errors. -/
def wNoBodyErrs : Option Value → Operation → List ValErr := fun _ _ => []

/-- Fixture external response-header validator: no errors. -/
def wNoHeaderErrs : Params → Operation → Option Nat → List ValErr := fun _ _ _ => []

/-- Fixture operation with no security and a single 201 response. -/
def wOpPlain : Operation := { responses := [.code 201] }

/-- Fixture operation with no security and an ambiguous responses object. -/
def wOpAmbiguous : Operation := { responses := [.code 200, .code 204, .other] }

/-- Fixture handler that sets a 200 status itself and returns no body. -/
def wHandlerSet200 : OperationHandler := fun _ r _ =>
  ({ r with statusCode := some 200, body := some (.str "ok") }, .ok none)

/-- Fixture handler that sets neither status nor body and returns a body
value. -/
def wHandlerPassive : OperationHandler := fun _ r _ => (r, .ok (some (.str "made")))

/-- Fixture handler that sets the body to `null` and returns another body
value (the nullish-coalescing counterexample). -/
def wHandlerNull : OperationHandler := fun _ r _ =>
  ({ r with body := some .null }, .ok (some (.str "x")))

/-- Fixture handler that sets a non-nullish body and returns another value. -/
def wHandlerKeep : OperationHandler := fun _ r _ =>
  ({ r with body := some (.str "kept") }, .ok (some (.str "ignored")))

/-- Fixture registered definition around one operation and handler. -/
def wApi (op : Operation) (handler : OperationHandler) : ApiModel :=
  { matchOutcome := fun _ => .matched op "op1" [],
    operations := [("op1", handler)],
    authorizers := wAuth,
    definition := wDefn,
    ajv := wAjv,
    respBodyErrors := wNoBodyErrs,
    respHeaderErrors := wNoHeaderErrs }

/-- Fixture error handler that adds headers but never sets a status code. -/
def wSilentErrorHandler : RawRequest → Response → Value → Err → Response :=
  fun _ r _ _ => { r with headers := [("x", .str "a"), ("y", .arr [.str "b", .bool true])] }

/-- Fixture facade configuration with no registered definition. -/
def wCfgNoApis : Config := ⟨[], [], wSilentErrorHandler, .warn⟩

/-- Fixture definition that never matches (probes of it report not-found). -/
def wApiNF : ApiModel := { wApi wOpPlain wHandlerSet200 with operations := [] }

/-- Fixture definition whose probe succeeds. -/
def wApiOK : ApiModel := wApi wOpPlain wHandlerSet200

/-- Fixture definition whose probe fails with a non-routing error. -/
def wApiErr : ApiModel :=
  { wApi wOpPlain wHandlerSet200 with
    operations := [("a", wHandlerSet200), ("b", wHandlerSet200)] }

/-- Fixture probe distinguishing the three fixture definitions by the number
of registered handlers: not-found, success, or a thrown `HttpError`. -/
def wProbe : ApiModel → Response → StepOut := fun api r =>
  match api.operations with
  | [] => ⟨r, some (mkNotFoundError wRaw), []⟩
  | [_] => ⟨{ r with statusCode := some 200 }, none, []⟩
  | _ => ⟨r, some (.http "boom" 418 none), []⟩

/-! Characterization lemmas for the security evaluator. -/

/-- The inner requirement loop is fully described by the declarative
per-alternative functions: it collects exactly the successful results and the
thrown errors, invokes every scheme, and is authorized iff no scheme threw. -/
theorem evalRequirementSet_eq (A : String → Authorizer) (defn : ApiDefinition)
    (req : Request) (data : Value) (alt : SecRequirement) :
    evalRequirementSet A defn req data alt =
      ⟨altResults A defn req data alt, altErrors A defn req data alt,
       altCalls alt, altOkB A defn req data alt⟩ := by
  induction alt with
  | nil => rfl
  | cons e rest ih =>
    obtain ⟨name, scopes⟩ := e
    simp only [evalRequirementSet, ih, altResults, altErrors, altCalls, altOkB,
      List.filterMap_cons, List.map_cons, List.all_cons]
    cases callAuthorizer A defn req data name scopes <;> simp

/-- A prefix of unsatisfied alternatives contributes its recorded errors to the
accumulator and its calls to the log, then evaluation continues on the rest. -/
theorem evalRequirements_append_fail (A : String → Authorizer) (defn : ApiDefinition)
    (req : Request) (data : Value) (pre rest : List SecRequirement) (errs : List Err)
    (hpre : ∀ alt ∈ pre, altOkB A defn req data alt = false) :
    evalRequirements A defn req data (pre ++ rest) errs =
      ⟨(evalRequirements A defn req data rest
          (errs ++ pre.flatMap (altErrors A defn req data))).result,
       (pre.map altCalls).flatten ++
         (evalRequirements A defn req data rest
           (errs ++ pre.flatMap (altErrors A defn req data))).calls⟩ := by
  induction pre generalizing errs with
  | nil => simp
  | cons s pre ih =>
    have hs : altOkB A defn req data s = false := hpre s (List.mem_cons_self s pre)
    have hrest : ∀ alt ∈ pre, altOkB A defn req data alt = false :=
      fun alt h => hpre alt (List.mem_cons_of_mem s h)
    simp only [List.cons_append, evalRequirements, evalRequirementSet_eq, hs,
      Bool.false_eq_true, if_false, List.append_eq]
    rw [ih (errs ++ altErrors A defn req data s) hrest]
    simp [List.append_assoc]

/-- A satisfied alternative at the head of the list wins immediately: its
results map is returned and only its schemes are invoked. -/
theorem evalRequirements_win (A : String → Authorizer) (defn : ApiDefinition)
    (req : Request) (data : Value) (win : SecRequirement) (post : List SecRequirement)
    (errs : List Err) (hwin : altOkB A defn req data win = true) :
    evalRequirements A defn req data (win :: post) errs =
      ⟨.ok (altResults A defn req data win), altCalls win⟩ := by
  simp only [evalRequirements, evalRequirementSet_eq, hwin, if_true]

/-- When every alternative is unsatisfied the loop ends with the accumulated
errors of all alternatives and the calls of all their schemes. -/
theorem evalRequirements_allFail (A : String → Authorizer) (defn : ApiDefinition)
    (req : Request) (data : Value) (l : List SecRequirement) (errs : List Err)
    (hall : ∀ alt ∈ l, altOkB A defn req data alt = false) :
    evalRequirements A defn req data l errs =
      ⟨.error (errs ++ l.flatMap (altErrors A defn req data)), (l.map altCalls).flatten⟩ := by
  induction l generalizing errs with
  | nil => simp [evalRequirements]
  | cons s l ih =>
    have hs : altOkB A defn req data s = false := hall s (List.mem_cons_self s l)
    have hrest : ∀ alt ∈ l, altOkB A defn req data alt = false :=
      fun alt h => hall alt (List.mem_cons_of_mem s h)
    simp only [evalRequirements, evalRequirementSet_eq, hs, Bool.false_eq_true, if_false,
      ih _ hrest, List.flatMap_cons, List.map_cons, List.flatten_cons, List.append_assoc]

/-- The sequential `statusCode = statusCode ?? subStatusCode` fold picks the
first error carrying a status code. -/
theorem statusFold_eq_findSome (l : List Err) :
    statusFold l = l.findSome? Err.statusCodeField := by
  have aux : ∀ (t : List Err) (s : Nat),
      t.foldl (fun acc e => match acc with | some s => some s | none => e.statusCodeField)
        (some s) = some s := by
    intro t
    induction t with
    | nil => intro s; rfl
    | cons e t ih => intro s; simpa [List.foldl_cons] using ih s
  induction l with
  | nil => rfl
  | cons e l ih =>
    simp only [statusFold, List.foldl_cons, List.findSome?_cons]
    cases h : e.statusCodeField with
    | none => simpa [statusFold, h] using ih
    | some s => simp [h, aux]

/-! Helper lemmas about the dispatcher, router and facade. -/

/-- Under the warn strategy validation errors are only logged, never thrown. -/
theorem handleValidationErrors_warn (errors : List ValErr) (title : String) :
    handleValidationErrors errors title .warn = none := by
  unfold handleValidationErrors failWith
  cases errors <;> simp

/-- Under the warn strategy response validation never throws. -/
theorem validateResponse_warn (api : ApiModel) (op : Operation) (res : Response) :
    validateResponse api .warn op res = none := by
  unfold validateResponse
  exact handleValidationErrors_warn _ _

/-- The definition loop with a single definition is exactly one probe. -/
theorem routeLoop_single (probe : ApiModel → Response → StepOut) (api : ApiModel)
    (res : Response) (remembered : Option Err) :
    routeLoop probe [api] res remembered = probe api res := by
  rcases hpo : probe api res with ⟨r, e, c⟩
  simp only [routeLoop, hpo]
  cases e with
  | none => rfl
  | some e => cases he : e.isNotFound <;> simp [he, routeLoop]

/-- A facade with exactly one definition and no interceptor routes by a single
probe of that definition. -/
theorem routeAsync_single (api : ApiModel) (eh : RawRequest → Response → Value → Err → Response)
    (strategy : FailStrategy) (rawReq : RawRequest) (res : Response) (data : Value) :
    routeAsync ⟨[], [api], eh, strategy⟩ rawReq res data =
      apiHandleRequest api strategy rawReq res data := by
  simp only [routeAsync, List.isEmpty_cons, Bool.false_eq_true, if_false, runInterceptors]
  exact routeLoop_single _ api res none

/-- The finalized status code is the routed (or error-handled) status code,
defaulted to 500. -/
theorem handleAsync_statusCode (cfg : Config) (req : RawRequest) (data : Value) :
    (handleAsync cfg req data).1.statusCode =
      ((match (routeAsync cfg req emptyResponse data).err with
        | none => (routeAsync cfg req emptyResponse data).res
        | some e => cfg.errorHandler req (routeAsync cfg req emptyResponse data).res data e) :
        Response).statusCode.getD 500 := by
  simp only [handleAsync, formatResponse, Option.getD_some]

/-- Stringified header values are strings or arrays of strings. -/
theorem stringifyHeaderValue_ok (v : Value) :
    isStringOrStringArray (stringifyHeaderValue v) = true := by
  cases v with
  | arr es =>
    simp only [stringifyHeaderValue, isStringOrStringArray, List.all_eq_true]
    intro x hx
    obtain ⟨e, _, rfl⟩ := List.mem_map.mp hx
    rfl
  | _ => rfl

/-- Unfolding of the handler wrapper once parsing succeeded, authorization
returned a results map and the handler returned without throwing: the body is
resolved by nullish coalescing, the status by `getDefaultStatusCode` when
unset, and the response is then validated. -/
theorem runOperation_resolved (api : ApiModel) (strategy : FailStrategy)
    (handler : OperationHandler) (op : Operation) (pathParams : Params)
    (rawReq : RawRequest) (res : Response) (data : Value) (req2 : Request)
    (results : List (String × Value)) (acalls : List Ev) (res1 : Response)
    (rv : Option Value)
    (hparse : parseRequest api.ajv rawReq pathParams op = .ok req2)
    (hauth : authorizeRequest api.authorizers api.definition op rawReq req2 data =
      (.ok results, acalls))
    (hhandler : handler req2 res ⟨data, results⟩ = (res1, .ok rv)) :
    runOperation api strategy handler op pathParams rawReq res data =
      (match ({ res1 with body := nullishVal res1.body rv } : Response).statusCode with
       | some c =>
         ⟨{ res1 with body := nullishVal res1.body rv, statusCode := some c },
          validateResponse api strategy op
            { res1 with body := nullishVal res1.body rv, statusCode := some c },
          acalls ++ [.handlerCall results]⟩
       | none =>
         match getDefaultStatusCode op with
         | .error e =>
           ⟨{ res1 with body := nullishVal res1.body rv }, some e,
            acalls ++ [.handlerCall results]⟩
         | .ok c =>
           ⟨{ res1 with body := nullishVal res1.body rv, statusCode := some c },
            validateResponse api strategy op
              { res1 with body := nullishVal res1.body rv, statusCode := some c },
            acalls ++ [.handlerCall results]⟩) := by
  simp only [runOperation, hparse, hauth, hhandler]
  cases h : ({ res1 with body := nullishVal res1.body rv } : Response).statusCode <;>
    simp only [h]

/-- The event log of `handleAsync` is the log of its routing run. -/
theorem handleAsync_calls (cfg : Config) (req : RawRequest) (data : Value) :
    (handleAsync cfg req data).2 = (routeAsync cfg req emptyResponse data).calls := rfl

/-- A prefix of definitions that report not-found is skipped, remembering the
not-found error. -/
theorem routeLoop_skip_notFound (probe : ApiModel → Response → StepOut)
    (req : RawRequest) (res : Response) (pre rest : List ApiModel)
    (remembered : Option Err)
    (hpre : ∀ a ∈ pre, probe a res = ⟨res, some (mkNotFoundError req), []⟩) :
    routeLoop probe (pre ++ rest) res remembered =
      routeLoop probe rest res
        (if pre.isEmpty then remembered else some (mkNotFoundError req)) := by
  induction pre generalizing remembered with
  | nil => simp
  | cons a pre ih =>
    have ha := hpre a (List.mem_cons_self a pre)
    have hrest : ∀ x ∈ pre, probe x res = ⟨res, some (mkNotFoundError req), []⟩ :=
      fun x h => hpre x (List.mem_cons_of_mem a h)
    simp only [List.cons_append, routeLoop, ha, mkNotFoundError, Err.isNotFound,
      if_true, List.nil_append, List.append_eq, List.isEmpty_cons, Bool.false_eq_true,
      if_false]
    rw [ih (some (.notFound ("Unknown operation " ++ formatOperationName req))) hrest]
    simp [mkNotFoundError]

/-- The decomposition underlying the alternation claims: with a failing prefix
and a satisfied alternative, `authorizeRequest` returns that alternative's
results and logs the calls of the prefix and of the winner only. -/
theorem authorizeRequest_decomp (A : String → Authorizer)
    (defn : ApiDefinition) (op : Operation) (rawReq : RawRequest) (req : Request)
    (data : Value) (pre post : List SecRequirement) (win : SecRequirement)
    (hsec : op.security = some (pre ++ win :: post))
    (hpre : ∀ alt ∈ pre, altOkB A defn req data alt = false)
    (hwin : altOkB A defn req data win = true) :
    authorizeRequest A defn op rawReq req data =
      (.ok (altResults A defn req data win), (pre.map altCalls).flatten ++ altCalls win) := by
  have hne : ((pre ++ win :: post).isEmpty) = false := by
    cases pre <;> simp
  simp only [authorizeRequest, hsec, Option.orElse, Option.getD, hne, Bool.false_eq_true,
    if_false]
  rw [evalRequirements_append_fail A defn req data pre (win :: post) [] hpre,
    evalRequirements_win A defn req data win post _ hwin]

/-- C1: for a non-empty requirement list decomposed as `pre ++ win :: post`
where every alternative of `pre` has a throwing scheme and every scheme of
`win` succeeds, `authorizeRequest` returns exactly the results map of `win`
(which becomes `params.security.results`), and the invocation log contains
every scheme of every alternative of `pre` (each failing alternative is still
evaluated to the end, recording each thrown error) followed by every scheme of
`win`, and nothing from `post`: `post` is universally quantified, so no later
alternative is evaluated. -/
theorem C1_first_satisfied_alternative_wins (A : String → Authorizer)
    (defn : ApiDefinition) (op : Operation) (rawReq : RawRequest) (req : Request)
    (data : Value) (pre post : List SecRequirement) (win : SecRequirement)
    (hsec : op.security = some (pre ++ win :: post))
    (hpre : ∀ alt ∈ pre, altOkB A defn req data alt = false)
    (hwin : altOkB A defn req data win = true) :
    authorizeRequest A defn op rawReq req data =
      (.ok (altResults A defn req data win), (pre.map altCalls).flatten ++ altCalls win) :=
  authorizeRequest_decomp A defn op rawReq req data pre post win hsec hpre hwin

/-- Witness for C1 at the fixtures: the second alternative is the first fully
satisfied one; its two scheme results form the returned map, the failing first
alternative is evaluated in full, and the third alternative is untouched. -/
theorem C1_first_satisfied_alternative_wins_witness :
    authorizeRequest wAuth wDefn wOpWin wRaw wReq .null =
      (.ok [("good", .str "token"), ("good2", .int 2)],
       [.authCall "bad" [], .authCall "good" [],
        .authCall "good" ["s1"], .authCall "good2" []]) := by
  have h := C1_first_satisfied_alternative_wins wAuth wDefn wOpWin wRaw wReq .null
    [[("bad", []), ("good", [])]] [[("never", [])]] [("good", ["s1"]), ("good2", [])]
    rfl (by decide) (by decide)
  exact h

/-- C10: an empty requirement set is an always-satisfied alternative: once the
failing alternatives before it have been evaluated, it succeeds without
invoking any authorizer, `authorizeRequest` returns the empty results map, and
the alternatives after it (universally quantified) are never evaluated. -/
theorem C10_empty_alternative_authorizes (A : String → Authorizer)
    (defn : ApiDefinition) (op : Operation) (rawReq : RawRequest) (req : Request)
    (data : Value) (pre post : List SecRequirement)
    (hsec : op.security = some (pre ++ [] :: post))
    (hpre : ∀ alt ∈ pre, altOkB A defn req data alt = false) :
    authorizeRequest A defn op rawReq req data = (.ok [], (pre.map altCalls).flatten) := by
  have h := authorizeRequest_decomp A defn op rawReq req data pre post []
    hsec hpre rfl
  simpa [altResults, altCalls] using h

/-- Witness for C10 at the fixtures: the empty second alternative authorizes
the request with an empty results map; only the failing first alternative was
evaluated. -/
theorem C10_empty_alternative_authorizes_witness :
    authorizeRequest wAuth wDefn wOpEmptyAlt wRaw wReq .null =
      (.ok [], [.authCall "bad" []]) := by
  have h := C10_empty_alternative_authorizes wAuth wDefn wOpEmptyAlt wRaw wReq .null
    [[("bad", [])]] [[("never", [])]] rfl (by decide)
  exact h

/-- C5: when every alternative of a non-empty requirement list fails,
`authorizeRequest` throws an `UnauthorizedError` carrying the error of every
throwing scheme of every alternative, in order; `toHttpError` maps it to the
first scheme-supplied status code if any error carries one and to 401
otherwise; and the default error handler fills the response with that status
and a body listing each recorded error message and data payload. -/
theorem C5_all_alternatives_fail_unauthorized (A : String → Authorizer)
    (defn : ApiDefinition) (op : Operation) (rawReq : RawRequest) (req : Request)
    (data : Value) (reqs : List SecRequirement) (res : Response)
    (hsec : op.security = some reqs) (hne : reqs ≠ [])
    (hall : ∀ alt ∈ reqs, altOkB A defn req data alt = false) :
    (authorizeRequest A defn op rawReq req data).1 =
      .error (mkUnauthorizedError rawReq (reqs.flatMap (altErrors A defn req data))) ∧
    (toHttpError (mkUnauthorizedError rawReq
        (reqs.flatMap (altErrors A defn req data)))).statusCode =
      ((reqs.flatMap (altErrors A defn req data)).findSome? Err.statusCodeField).getD 401 ∧
    defaultErrorHandler rawReq res data
        (mkUnauthorizedError rawReq (reqs.flatMap (altErrors A defn req data))) =
      { res with
        statusCode :=
          some (((reqs.flatMap (altErrors A defn req data)).findSome?
            Err.statusCodeField).getD 401),
        body := some (.obj [("message", .str "Not authorized"),
          ("data", .obj [("errors",
            .arr ((reqs.flatMap (altErrors A defn req data)).map fun e =>
              .obj [("message", .str e.message), ("data", optValue e.dataField)]))])]) } := by
  have hne2 : reqs.isEmpty = false := by
    cases reqs with
    | nil => exact absurd rfl hne
    | cons a l => rfl
  refine ⟨?_, ?_, ?_⟩
  · simp only [authorizeRequest, hsec, Option.orElse, Option.getD, hne2, Bool.false_eq_true,
      if_false]
    have h := evalRequirements_allFail A defn req data reqs [] hall
    rw [h]
    simp
  · simp [toHttpError, mkUnauthorizedError, statusFold_eq_findSome]
  · simp [defaultErrorHandler, toHttpError, mkUnauthorizedError, statusFold_eq_findSome,
      optValue]

/-- Witness for C5 at the fixtures: both alternatives fail; the collected
errors are the three thrown `HttpError`s in order, the first scheme-supplied
status 403 wins over 401, and the default error handler writes that status and
the error list into the response. -/
theorem C5_all_alternatives_fail_unauthorized_witness :
    (authorizeRequest wAuth wDefn wOpFail wRaw wReq .null).1 =
      .error (mkUnauthorizedError wRaw
        [.http "bad b1" 403 none, .http "bad b2" 403 none]) ∧
    (toHttpError (mkUnauthorizedError wRaw
        [.http "bad b1" 403 none, .http "bad b2" 403 none])).statusCode = 403 ∧
    defaultErrorHandler wRaw emptyResponse .null
        (mkUnauthorizedError wRaw [.http "bad b1" 403 none, .http "bad b2" 403 none]) =
      { emptyResponse with
        statusCode := some 403,
        body := some (.obj [("message", .str "Not authorized"),
          ("data", .obj [("errors",
            .arr [.obj [("message", .str "bad b1"), ("data", .undef)],
                  .obj [("message", .str "bad b2"), ("data", .undef)]])])]) } := by
  have h := C5_all_alternatives_fail_unauthorized wAuth wDefn wOpFail wRaw wReq .null
    [[("b1", [])], [("b2", ["s"]), ("good", [])]] emptyResponse rfl (by decide) (by decide)
  exact h

/-- C7: when the matched operation declares no security requirements (neither
on the operation nor on the document), routing resolves without logging a
single authorizer call — the whole `handle` log consists of the one handler
invocation, whose `security.results` argument is the empty map. -/
theorem C7_no_security_trivially_authorized (api : ApiModel) (op : Operation)
    (opid : String) (pathParams : Params) (handler : OperationHandler)
    (eh : RawRequest → Response → Value → Err → Response) (rawReq : RawRequest)
    (data : Value) (req2 : Request) (res1 : Response) (rv : Option Value)
    (hmatch : api.matchOutcome rawReq = .matched op opid pathParams)
    (hlook : lookupKey api.operations opid = some handler)
    (hsecOp : op.security = none) (hsecDef : api.definition.security = none)
    (hparse : parseRequest api.ajv rawReq pathParams op = .ok req2)
    (hhandler : handler req2 emptyResponse ⟨data, []⟩ = (res1, .ok rv))
    (hstatus : res1.statusCode.isSome = true) :
    (routeAsync ⟨[], [api], eh, .warn⟩ rawReq emptyResponse data).err = none ∧
    (routeAsync ⟨[], [api], eh, .warn⟩ rawReq emptyResponse data).calls = [.handlerCall []] ∧
    (handleAsync ⟨[], [api], eh, .warn⟩ rawReq data).2 = [.handlerCall []] := by
  have hauth : authorizeRequest api.authorizers api.definition op rawReq req2 data =
      (.ok [], []) := by
    simp [authorizeRequest, hsecOp, hsecDef, Option.orElse]
  have hrun := runOperation_resolved api .warn handler op pathParams rawReq emptyResponse
    data req2 [] [] res1 rv hparse hauth hhandler
  obtain ⟨c, hc⟩ := Option.isSome_iff_exists.mp hstatus
  rw [show ({ res1 with body := nullishVal res1.body rv } : Response).statusCode = some c
    from hc] at hrun
  simp only [validateResponse_warn, List.nil_append] at hrun
  have happi : apiHandleRequest api .warn rawReq emptyResponse data =
      ⟨{ res1 with body := nullishVal res1.body rv, statusCode := some c }, none,
       [.handlerCall []]⟩ := by
    simp only [apiHandleRequest, hmatch, hlook, hrun]
  rw [routeAsync_single, handleAsync_calls, routeAsync_single, happi]
  exact ⟨rfl, rfl, rfl⟩

/-- Witness for C7: a one-operation definition with no declared security; the
handler runs with an empty results map and no authorizer is invoked. -/
theorem C7_no_security_trivially_authorized_witness :
    (routeAsync ⟨[], [wApi wOpPlain wHandlerSet200], defaultErrorHandler, .warn⟩
      wRaw emptyResponse .null).err = none ∧
    (routeAsync ⟨[], [wApi wOpPlain wHandlerSet200], defaultErrorHandler, .warn⟩
      wRaw emptyResponse .null).calls = [.handlerCall []] ∧
    (handleAsync ⟨[], [wApi wOpPlain wHandlerSet200], defaultErrorHandler, .warn⟩
      wRaw .null).2 = [.handlerCall []] := by
  exact C7_no_security_trivially_authorized (wApi wOpPlain wHandlerSet200) wOpPlain
    "op1" [] wHandlerSet200 defaultErrorHandler wRaw .null wReq
    { statusCode := some 200, headers := [], body := some (.str "ok") } none
    rfl rfl rfl rfl rfl rfl rfl

/-- C2: for a dispatched operation whose handler completes without setting a
status code (under the default configuration: warn strategy and default error
handler): if the responses object declares exactly one status in `[200, 400)`
the finalized response carries that status; if it declares zero or several,
dispatch throws the implicit-status-code `Error` and the finalized response
carries status 500. -/
theorem C2_implicit_status_resolution (api : ApiModel) (op : Operation)
    (opid : String) (pathParams : Params) (handler : OperationHandler)
    (rawReq : RawRequest) (data : Value) (req2 : Request)
    (hmatch : api.matchOutcome rawReq = .matched op opid pathParams)
    (hlook : lookupKey api.operations opid = some handler)
    (hparse : parseRequest api.ajv rawReq pathParams op = .ok req2)
    (hauth : exceptIsOk (authorizeRequest api.authorizers api.definition op rawReq
      req2 data).1 = true)
    (hok : ∀ p, exceptIsOk (handler req2 emptyResponse p).2 = true)
    (hnostatus : ∀ p, ((handler req2 emptyResponse p).1).statusCode = none) :
    (∀ c, successCodes op = [c] →
      (routeAsync ⟨[], [api], defaultErrorHandler, .warn⟩ rawReq emptyResponse data).err =
        none ∧
      (handleAsync ⟨[], [api], defaultErrorHandler, .warn⟩ rawReq data).1.statusCode = c) ∧
    ((successCodes op).length ≠ 1 →
      (routeAsync ⟨[], [api], defaultErrorHandler, .warn⟩ rawReq emptyResponse data).err =
        some (.simple (implicitStatusMsg op)) ∧
      (handleAsync ⟨[], [api], defaultErrorHandler, .warn⟩ rawReq data).1.statusCode = 500) := by
  rcases hA : authorizeRequest api.authorizers api.definition op rawReq req2 data with
    ⟨e | results, acalls⟩
  · rw [hA] at hauth
    simp [exceptIsOk] at hauth
  rcases hh : handler req2 emptyResponse ⟨data, results⟩ with ⟨res1, he | rv⟩
  · have := hok ⟨data, results⟩
    rw [hh] at this
    simp [exceptIsOk] at this
  have hst : res1.statusCode = none := by
    have := hnostatus ⟨data, results⟩
    rw [hh] at this
    exact this
  have hrun := runOperation_resolved api .warn handler op pathParams rawReq emptyResponse
    data req2 results acalls res1 rv hparse hA hh
  rw [show ({ res1 with body := nullishVal res1.body rv } : Response).statusCode = none
    from hst] at hrun
  constructor
  · intro c hc
    have hgd : getDefaultStatusCode op = .ok c := by
      simp [getDefaultStatusCode, hc]
    rw [hgd] at hrun
    simp only [validateResponse_warn] at hrun
    have happi : apiHandleRequest api .warn rawReq emptyResponse data =
        ⟨{ res1 with body := nullishVal res1.body rv, statusCode := some c }, none,
         acalls ++ [.handlerCall results]⟩ := by
      simp only [apiHandleRequest, hmatch, hlook, hrun]
    rw [routeAsync_single, happi, handleAsync_statusCode, routeAsync_single, happi]
    exact ⟨rfl, rfl⟩
  · intro hlen
    have hgd : getDefaultStatusCode op = .error (.simple (implicitStatusMsg op)) := by
      cases hsc : successCodes op with
      | nil => simp [getDefaultStatusCode, hsc]
      | cons a t =>
        cases t with
        | nil => exact absurd (by simp [hsc]) hlen
        | cons b t2 => simp [getDefaultStatusCode, hsc]
    rw [hgd] at hrun
    have happi : apiHandleRequest api .warn rawReq emptyResponse data =
        ⟨{ statusCode := none, headers := res1.headers, body := nullishVal res1.body rv },
         some (.simple (implicitStatusMsg op)), acalls ++ [.handlerCall results]⟩ := by
      simp only [apiHandleRequest, hmatch, hlook, hrun]
    rw [routeAsync_single, happi, handleAsync_statusCode, routeAsync_single, happi]
    exact ⟨rfl, rfl⟩

/-- Witness for C2: with a single declared 201 response and a passive handler
the finalized status is 201; with declared responses 200, 204 and `default`
the dispatch throws the implicit-status-code error and the finalized status is
500. -/
theorem C2_implicit_status_resolution_witness :
    ((routeAsync ⟨[], [wApi wOpPlain wHandlerPassive], defaultErrorHandler, .warn⟩
        wRaw emptyResponse .null).err = none ∧
      (handleAsync ⟨[], [wApi wOpPlain wHandlerPassive], defaultErrorHandler, .warn⟩
        wRaw .null).1.statusCode = 201) ∧
    ((routeAsync ⟨[], [wApi wOpAmbiguous wHandlerPassive], defaultErrorHandler, .warn⟩
        wRaw emptyResponse .null).err =
          some (.simple (implicitStatusMsg wOpAmbiguous)) ∧
      (handleAsync ⟨[], [wApi wOpAmbiguous wHandlerPassive], defaultErrorHandler, .warn⟩
        wRaw .null).1.statusCode = 500) := by
  constructor
  · exact (C2_implicit_status_resolution (wApi wOpPlain wHandlerPassive) wOpPlain "op1" []
      wHandlerPassive wRaw .null wReq rfl rfl rfl rfl (fun p => rfl) (fun p => rfl)).1
      201 rfl
  · exact (C2_implicit_status_resolution (wApi wOpAmbiguous wHandlerPassive) wOpAmbiguous
      "op1" [] wHandlerPassive wRaw .null wReq rfl rfl rfl rfl (fun p => rfl)
      (fun p => rfl)).2 (by decide)

/-- C3: `handleAsync` is a total function into `RawResponse` (it never
rejects); any error thrown while routing (interception, routing,
authorization, dispatch or response validation all surface through the routing
step) is handed to the error handler, whose filled-in response — with the
status code forced to 500 when the handler left it unset — is finalized; and
every header value of the returned response is a string or an array of
strings. -/
theorem C3_handle_always_responds (cfg : Config) (req : RawRequest) (data : Value) :
    (∀ e, (routeAsync cfg req emptyResponse data).err = some e →
      (handleAsync cfg req data).1 =
        formatResponse
          { cfg.errorHandler req (routeAsync cfg req emptyResponse data).res data e with
            statusCode := some ((cfg.errorHandler req
              (routeAsync cfg req emptyResponse data).res data e).statusCode.getD 500) }) ∧
    (∀ e, (routeAsync cfg req emptyResponse data).err = some e →
      (cfg.errorHandler req (routeAsync cfg req emptyResponse data).res data e).statusCode =
        none →
      (handleAsync cfg req data).1.statusCode = 500) ∧
    (∀ kv ∈ (handleAsync cfg req data).1.headers, isStringOrStringArray kv.2 = true) := by
  refine ⟨?_, ?_, ?_⟩
  · intro e he
    simp only [handleAsync, he]
  · intro e he hnone
    rw [handleAsync_statusCode]
    simp only [he, hnone, Option.getD_none]
  · intro kv hkv
    have hh : (handleAsync cfg req data).1.headers =
        ((match (routeAsync cfg req emptyResponse data).err with
          | none => (routeAsync cfg req emptyResponse data).res
          | some e => cfg.errorHandler req (routeAsync cfg req emptyResponse data).res data e) :
          Response).headers.map (fun p => (p.1, stringifyHeaderValue p.2)) := by
      simp only [handleAsync, formatResponse]
    rw [hh] at hkv
    obtain ⟨p, _, rfl⟩ := List.mem_map.mp hkv
    exact stringifyHeaderValue_ok p.2

/-- Witness for C3: with no registered definition and an error handler that
only adds headers (leaving the status unset), the finalized status is forced
to 500 and a finalized array header value consists of strings. -/
theorem C3_handle_always_responds_witness :
    (handleAsync wCfgNoApis wRaw .null).1.statusCode = 500 ∧
    isStringOrStringArray (Value.arr [.str "b", .str "true"]) = true := by
  have hH : (handleAsync wCfgNoApis wRaw .null).1.headers =
      [("x", Value.str "a"), ("y", Value.arr [.str "b", .str "true"])] := by
    simp [handleAsync, routeAsync, formatResponse, wCfgNoApis, wSilentErrorHandler,
      stringifyHeaderValue, jsToString, emptyResponse]
  constructor
  · exact (C3_handle_always_responds wCfgNoApis wRaw .null).2.1
      (.simple "No APIs are registered") rfl rfl
  · refine (C3_handle_always_responds wCfgNoApis wRaw .null).2.2
      ("y", Value.arr [.str "b", .str "true"]) ?_
    rw [hH]
    exact List.Mem.tail _ (List.Mem.head _)

/-- C4: routing over multiple definitions: with zero registered definitions a
distinct internal `No APIs are registered` error (mapped to 500, not 404) is
raised before anything runs; a prefix of definitions reporting not-found is
skipped and the first definition whose probe does not fail decides the
outcome, with all later definitions universally quantified (never probed); a
probe failing with any non-not-found error propagates immediately; and when
every definition reports not-found the remembered not-found error is raised
and maps to 404. -/
theorem C4_multi_definition_routing (probe : ApiModel → Response → StepOut)
    (ics : List Interceptor) (eh : RawRequest → Response → Value → Err → Response)
    (strategy : FailStrategy) (req : RawRequest) (res : Response) (data : Value) :
    (routeAsync ⟨ics, [], eh, strategy⟩ req res data =
      ⟨res, some (.simple "No APIs are registered"), []⟩ ∧
      (toHttpError (.simple "No APIs are registered")).statusCode = 500) ∧
    (∀ pre api post, (∀ a ∈ pre, probe a res = ⟨res, some (mkNotFoundError req), []⟩) →
      (probe api res).err = none →
      routeLoop probe (pre ++ api :: post) res none = probe api res) ∧
    (∀ pre api post e, (∀ a ∈ pre, probe a res = ⟨res, some (mkNotFoundError req), []⟩) →
      (probe api res).err = some e → e.isNotFound = false →
      routeLoop probe (pre ++ api :: post) res none = probe api res) ∧
    (∀ l, l ≠ [] → (∀ a ∈ l, probe a res = ⟨res, some (mkNotFoundError req), []⟩) →
      routeLoop probe l res none = ⟨res, some (mkNotFoundError req), []⟩ ∧
      (toHttpError (mkNotFoundError req)).statusCode = 404) := by
  refine ⟨⟨rfl, rfl⟩, ?_, ?_, ?_⟩
  · intro pre api post hpre hok
    rw [routeLoop_skip_notFound probe req res pre (api :: post) none hpre]
    rcases hpo : probe api res with ⟨r, er, c⟩
    rw [hpo] at hok
    simp only at hok
    subst hok
    simp only [routeLoop, hpo]
  · intro pre api post e hpre herr hnf
    rw [routeLoop_skip_notFound probe req res pre (api :: post) none hpre]
    rcases hpo : probe api res with ⟨r, er, c⟩
    rw [hpo] at herr
    simp only at herr
    subst herr
    simp only [routeLoop, hpo, hnf, Bool.false_eq_true, if_false]
  · intro l hne hall
    refine ⟨?_, rfl⟩
    have h0 := routeLoop_skip_notFound probe req res l [] none hall
    rw [List.append_nil] at h0
    rw [h0]
    cases l with
    | nil => exact absurd rfl hne
    | cons a t => rfl

/-- Witness for C4 at the fixture probe: the empty facade raises the
`No APIs are registered` error; a not-found definition falls through to the
succeeding one; a hard failure propagates; two not-found definitions produce
the remembered 404. -/
theorem C4_multi_definition_routing_witness :
    (routeAsync ⟨[], [], defaultErrorHandler, .warn⟩ wRaw emptyResponse .null =
      ⟨emptyResponse, some (.simple "No APIs are registered"), []⟩ ∧
      (toHttpError (.simple "No APIs are registered")).statusCode = 500) ∧
    routeLoop wProbe [wApiNF, wApiOK, wApiNF] emptyResponse none = wProbe wApiOK emptyResponse ∧
    routeLoop wProbe [wApiNF, wApiErr, wApiOK] emptyResponse none = wProbe wApiErr emptyResponse ∧
    (routeLoop wProbe [wApiNF, wApiNF] emptyResponse none =
      ⟨emptyResponse, some (mkNotFoundError wRaw), []⟩ ∧
      (toHttpError (mkNotFoundError wRaw)).statusCode = 404) := by
  have hnf : ∀ a ∈ [wApiNF], wProbe a emptyResponse =
      ⟨emptyResponse, some (mkNotFoundError wRaw), []⟩ := by
    intro a ha
    rw [List.mem_singleton] at ha
    subst ha
    rfl
  refine ⟨(C4_multi_definition_routing wProbe [] defaultErrorHandler .warn wRaw
    emptyResponse .null).1, ?_, ?_, ?_⟩
  · exact (C4_multi_definition_routing wProbe [] defaultErrorHandler .warn wRaw
      emptyResponse .null).2.1 [wApiNF] wApiOK [wApiNF] hnf rfl
  · exact (C4_multi_definition_routing wProbe [] defaultErrorHandler .warn wRaw
      emptyResponse .null).2.2.1 [wApiNF] wApiErr [wApiOK] (.http "boom" 418 none)
      hnf rfl rfl
  · refine (C4_multi_definition_routing wProbe [] defaultErrorHandler .warn wRaw
      emptyResponse .null).2.2.2 [wApiNF, wApiNF] (by simp) ?_
    intro a ha
    rcases List.mem_cons.mp ha with h | h
    · subst h; rfl
    · rw [List.mem_singleton] at h
      subst h
      rfl

/-- C6 counterexample: the claim states that when the handler did set
`response.body` its return value is not used, but `res.body = res.body ??
returnValue` uses nullish coalescing: a handler that sets the body to `null`
and returns `"x"` produces the body `"x"`, not `null`. -/
theorem C6_counterexample_null_body_overwritten :
    (wHandlerNull wReq emptyResponse ⟨.null, []⟩).1.body = some .null ∧
    (runOperation (wApi wOpPlain wHandlerNull) .warn wHandlerNull wOpPlain [] wRaw
      emptyResponse .null).res.body = some (.str "x") ∧
    some (Value.str "x") ≠ some Value.null := by
  refine ⟨rfl, rfl, fun h => ?_⟩
  injection h with h2
  exact Value.noConfusion h2

/-- C6 amended: when the handler returns without throwing, the dispatched
response body is `res.body ?? returnValue`: if the handler left the body unset
or set it to a nullish value (`null`/`undefined`) the return value becomes the
body, even when the return value is `undefined`; if the handler set a
non-nullish body, the return value is not used. -/
theorem C6_body_resolution_amended (api : ApiModel) (op : Operation) (opid : String)
    (pathParams : Params) (handler : OperationHandler) (rawReq : RawRequest)
    (data : Value) (req2 : Request) (res1 : Response) (rv : Option Value)
    (strategy : FailStrategy)
    (hmatch : api.matchOutcome rawReq = .matched op opid pathParams)
    (hlook : lookupKey api.operations opid = some handler)
    (hsecOp : op.security = none) (hsecDef : api.definition.security = none)
    (hparse : parseRequest api.ajv rawReq pathParams op = .ok req2)
    (hhandler : handler req2 emptyResponse ⟨data, []⟩ = (res1, .ok rv)) :
    (runOperation api strategy handler op pathParams rawReq emptyResponse data).res.body =
      nullishVal res1.body rv ∧
    (isNullishOpt res1.body = true →
      (runOperation api strategy handler op pathParams rawReq emptyResponse data).res.body =
        rv) ∧
    (isNullishOpt res1.body = false →
      (runOperation api strategy handler op pathParams rawReq emptyResponse data).res.body =
        res1.body) := by
  have hauth : authorizeRequest api.authorizers api.definition op rawReq req2 data =
      (.ok [], []) := by
    simp [authorizeRequest, hsecOp, hsecDef, Option.orElse]
  have hrun := runOperation_resolved api strategy handler op pathParams rawReq emptyResponse
    data req2 [] [] res1 rv hparse hauth hhandler
  have hb : (runOperation api strategy handler op pathParams rawReq emptyResponse
      data).res.body = nullishVal res1.body rv := by
    rw [hrun]
    cases h : ({ res1 with body := nullishVal res1.body rv } : Response).statusCode with
    | some c => rfl
    | none => cases hd : getDefaultStatusCode op <;> rfl
  refine ⟨hb, ?_, ?_⟩
  · intro hn
    rw [hb]
    cases hB : res1.body with
    | none => rfl
    | some v =>
      rw [hB] at hn
      simp only [isNullishOpt] at hn
      simp [nullishVal, hn]
  · intro hn
    rw [hb]
    cases hB : res1.body with
    | none => rw [hB] at hn; simp [isNullishOpt] at hn
    | some v =>
      rw [hB] at hn
      simp only [isNullishOpt] at hn
      simp [nullishVal, hn]

/-- Witness for the amended C6: a handler that sets a non-nullish body keeps
it; a handler that sets neither body nor status gets its returned value as the
body. -/
theorem C6_body_resolution_amended_witness :
    (runOperation (wApi wOpPlain wHandlerKeep) .warn wHandlerKeep wOpPlain [] wRaw
      emptyResponse .null).res.body = some (.str "kept") ∧
    (runOperation (wApi wOpPlain wHandlerPassive) .warn wHandlerPassive wOpPlain [] wRaw
      emptyResponse .null).res.body = some (.str "made") := by
  constructor
  · exact (C6_body_resolution_amended (wApi wOpPlain wHandlerKeep) wOpPlain "op1" []
      wHandlerKeep wRaw .null wReq
      { statusCode := none, headers := [], body := some (.str "kept") }
      (some (.str "ignored")) .warn rfl rfl rfl rfl rfl rfl).2.2 rfl
  · exact (C6_body_resolution_amended (wApi wOpPlain wHandlerPassive) wOpPlain "op1" []
      wHandlerPassive wRaw .null wReq emptyResponse (some (.str "made")) .warn
      rfl rfl rfl rfl rfl rfl).2.1 rfl

/-- The reference allocated by `matchSchemaH` is fresh, so mutating it leaves
every existing object unchanged and grows the store by one. -/
theorem matchSchemaH_preserves (validate : AjvFn) (sch : ParamSchema) (h : Heap)
    (src r : Nat) (hr : r < h.objs.length) :
    ((matchSchemaH validate sch h src).1).deref r = h.deref r ∧
    ((matchSchemaH validate sch h src).1).objs.length = h.objs.length + 1 := by
  unfold matchSchemaH Heap.alloc Heap.setRef Heap.deref
  constructor
  · have hne : h.objs.length ≠ r := by omega
    rw [List.getElem?_set_ne hne]
    exact List.getElem?_append_left hr
  · simp

/-- C8: `matchSchema` operates on a structural copy, so the three coercion
calls of `parseRequest` leave the caller's params, headers and query objects
unchanged in the store: after `parseRequest` every original reference
dereferences to its value before the call, for any behaviour of the external
Ajv validator. -/
theorem C8_coercion_does_not_mutate_input (validate : AjvFn) (sch : ParamSchema)
    (op : Operation) (h : Heap) (pr hr2 qr : Nat)
    (hp : pr < h.objs.length) (hh2 : hr2 < h.objs.length) (hq : qr < h.objs.length) :
    ((matchSchemaH validate sch h pr).1).deref pr = h.deref pr ∧
    ((parseRequestH validate op h pr hr2 qr).1).deref pr = h.deref pr ∧
    ((parseRequestH validate op h pr hr2 qr).1).deref hr2 = h.deref hr2 ∧
    ((parseRequestH validate op h pr hr2 qr).1).deref qr = h.deref qr := by
  obtain ⟨hm1, _⟩ := matchSchemaH_preserves validate sch h pr pr hp
  refine ⟨hm1, ?_⟩
  unfold parseRequestH
  set h1 := (matchSchemaH validate (getParametersSchema op "path") h pr).1 with hh1
  have s1 := fun r hr => matchSchemaH_preserves validate (getParametersSchema op "path")
    h pr r hr
  have l1 : h1.objs.length = h.objs.length + 1 := (s1 pr hp).2
  set h2 := (matchSchemaH validate (getParametersSchema op "header") h1 hr2).1 with hh2d
  have s2 := fun r hr => matchSchemaH_preserves validate (getParametersSchema op "header")
    h1 hr2 r hr
  have l2 : h2.objs.length = h1.objs.length + 1 := (s2 hr2 (by omega)).2
  set h3 := (matchSchemaH validate (getParametersSchema op "query") h2 qr).1 with hh3
  have s3 := fun r hr => matchSchemaH_preserves validate (getParametersSchema op "query")
    h2 qr r hr
  refine ⟨?_, ?_, ?_⟩
  · rw [(s3 pr (by omega)).1, (s2 pr (by omega)).1, (s1 pr hp).1]
  · rw [(s3 hr2 (by omega)).1, (s2 hr2 (by omega)).1, (s1 hr2 hh2).1]
  · rw [(s3 qr (by omega)).1, (s2 qr (by omega)).1, (s1 qr hq).1]

/-- Witness for C8: a two-object store holding a params object and a headers
object (the query ref reuses the headers object); after the three coercion
calls both original references still hold their original values. -/
theorem C8_coercion_does_not_mutate_input_witness :
    ((matchSchemaH wAjv (getParametersSchema wOpPlain "path")
        ⟨[[("a", .str "1")], [("h", .str "x")]]⟩ 0).1).deref 0 = some [("a", .str "1")] ∧
    ((parseRequestH wAjv wOpPlain ⟨[[("a", .str "1")], [("h", .str "x")]]⟩ 0 1 1).1).deref 0 =
      some [("a", .str "1")] ∧
    ((parseRequestH wAjv wOpPlain ⟨[[("a", .str "1")], [("h", .str "x")]]⟩ 0 1 1).1).deref 1 =
      some [("h", .str "x")] := by
  have h := C8_coercion_does_not_mutate_input wAjv (getParametersSchema wOpPlain "path")
    wOpPlain ⟨[[("a", .str "1")], [("h", .str "x")]]⟩ 0 1 1 (by decide) (by decide) (by decide)
  exact ⟨h.1.trans rfl, h.2.1.trans rfl, h.2.2.1.trans rfl⟩

/-- C9: the pipeline holds no mutable state across calls — every plugin is
embedded as a pure function and each call allocates a fresh pending response —
so two `handleAsync` runs on the same facade configuration, raw request and
custom data produce the same status code, body and header set. -/
theorem C9_handle_idempotent (cfg : Config) (req : RawRequest) (data : Value)
    (r1 r2 : RawResponse)
    (h1 : r1 = (handleAsync cfg req data).1) (h2 : r2 = (handleAsync cfg req data).1) :
    r1.statusCode = r2.statusCode ∧ r1.body = r2.body ∧ r1.headers = r2.headers := by
  subst h1 h2
  exact ⟨rfl, rfl, rfl⟩

/-- Witness for C9: two runs of the fixture facade agree on status, body and
headers. -/
theorem C9_handle_idempotent_witness :
    ((handleAsync wCfgNoApis wRaw .null).1).statusCode =
      ((handleAsync wCfgNoApis wRaw .null).1).statusCode ∧
    ((handleAsync wCfgNoApis wRaw .null).1).body =
      ((handleAsync wCfgNoApis wRaw .null).1).body ∧
    ((handleAsync wCfgNoApis wRaw .null).1).headers =
      ((handleAsync wCfgNoApis wRaw .null).1).headers :=
  C9_handle_idempotent wCfgNoApis wRaw .null _ _ rfl rfl

end OpenApiTs
